import Mathlib

/-!
Shallow embedding of the browser-automation tool layer in `src/index.js`
(a Playwright-driven agent tool set: open/close session, navigate, screenshot,
locate elements, click, fill form).

Modelling conventions:
* The mutable module-level `page` handle is an explicit `Option PageModel`
  argument; `browser` is a `Bool` where it matters (`closeBrowser`).
* The external Playwright driver is abstracted by `PageModel`: the DOM snapshot
  visited by `find_elements`' selector loop is the list `dom` (the concatenated
  visit sequence over the fixed selector whitelist), and each Playwright
  locator/fill/click primitive used by `click_element` / `fill_form_fields` is
  a boolean oracle telling whether that one attempt (with its short timeout)
  succeeds.  Driver-level failures of `mouse.click`, `screenshot` and
  `waitForTimeout` are not modelled (those calls are treated as succeeding);
  `page.goto` failure is modelled through the `gotoError` oracle.
* Fallible tool executions return `Except String α` (the thrown `Error`
  message, resp. the returned string), paired with the list of page
  interactions (`PageOp`) the execution attempted, in order.
-/

/-- JS `String.prototype.includes` on exploded strings: `charsIncl pat s` is
true iff `pat` occurs as a contiguous run inside `s`. -/
def charsIncl (pat : List Char) : List Char → Bool
  | [] => pat.isEmpty
  | c :: cs => pat.isPrefixOf (c :: cs) || charsIncl pat cs

/-- `jsIncludes s pat` models `s.includes(pat)`. -/
def jsIncludes (s pat : String) : Bool :=
  charsIncl pat.data s.data

/-- JS `String.prototype.toLowerCase`, characterwise (exact on ASCII, the
realm the heuristics operate in). -/
def jsToLower (s : String) : String :=
  String.mk (s.data.map Char.toLower)

/-- JS `String.prototype.trim`: strip leading and trailing whitespace. -/
def jsTrim (s : String) : String :=
  String.mk (((s.data.dropWhile Char.isWhitespace).reverse.dropWhile Char.isWhitespace).reverse)

/-- JS `String.prototype.slice(0, n)`. -/
def jsSlice (s : String) (n : Nat) : String :=
  String.mk (s.data.take n)

/-- One DOM element as seen by the `page.evaluate` scan in `find_elements`
(line 94-118 of `src/index.js`): its text content, tag, `id` / `class`
attributes (`""` encodes an absent, i.e. falsy, attribute) and its rendered
bounding box. -/
structure Elem where
  textContent : String
  innerText : String
  tagName : String
  idAttr : String
  className : String
  width : Nat
  height : Nat
  left : Int
  top : Int
deriving DecidableEq, Repr

/-- `(el.textContent || el.innerText || '').trim()`. -/
def elemText (e : Elem) : String :=
  jsTrim (if e.textContent = "" then e.innerText else e.textContent)

/-- Whether one search term matches an element (line 99-103):
the lowercased term occurs in the lowercased visible text, or (when the
`class` attribute is truthy) in the lowercased class attribute, or (when the
`id` attribute is truthy) in the lowercased id attribute. -/
def termMatches (e : Elem) (t : String) : Bool :=
  jsIncludes (jsToLower (elemText e)) (jsToLower t)
    || ((e.className != "") && jsIncludes (jsToLower e.className) (jsToLower t))
    || ((e.idAttr != "") && jsIncludes (jsToLower e.idAttr) (jsToLower t))

/-- `Math.round(left + width / 2)` (JS `Math.round` is floor of `x + 1/2`). -/
def jsRoundHalf (twiceLeft width : Int) : Int :=
  Int.fdiv (twiceLeft + width + 1) 2

/-- A scored candidate pushed by the scan (line 105-115). -/
structure Candidate where
  text : String
  tag : String
  id : Option String
  className : String
  confidence : Nat
  centerX : Int
  centerY : Int
deriving DecidableEq, Repr

/-- The body of the `forEach` push (line 95-117): visibility filter
(`rect.width > 0 && rect.height > 0`), term matching, and candidate record
construction; `none` when nothing is pushed for this element. -/
def mkCandidate (terms : List String) (e : Elem) : Option Candidate :=
  if e.width > 0 && e.height > 0 then
    if (terms.filter (fun t => termMatches e t)).length ≠ 0 then
      some { text := jsSlice (elemText e) 80
             tag := jsToLower e.tagName
             id := if e.idAttr != "" then some e.idAttr else none
             className := jsSlice e.className 80
             confidence := (terms.filter (fun t => termMatches e t)).length
             centerX := jsRoundHalf (2 * e.left) e.width
             centerY := jsRoundHalf (2 * e.top) e.height }
    else none
  else none

/-- The sort comparator (line 120-123) as a "a may come before b" relation:
`cmp(a,b) ≤ 0` for `cmp = b.confidence - a.confidence` when confidences
differ, else `b.text.length - a.text.length`. -/
def candLE (a b : Candidate) : Bool :=
  if a.confidence = b.confidence then decide (b.text.length ≤ a.text.length)
  else decide (b.confidence < a.confidence)

/-- Insert into a sorted list, before the first element the inserted one may
precede. -/
def orderedIns {α : Type} (le : α → α → Bool) (a : α) : List α → List α
  | [] => [a]
  | b :: l => if le a b then a :: b :: l else b :: orderedIns le a l

/-- Stable insertion sort.  `Array.prototype.sort` is required to be stable
and, for a consistent comparator such as the one at line 120-123 (a total
preorder), every stable sort produces the same list, so this models the JS
sort exactly. -/
def stableSort {α : Type} (le : α → α → Bool) : List α → List α
  | [] => []
  | a :: l => orderedIns le a (stableSort le l)

/-- The value returned by `page.evaluate` in `find_elements`: all matching
visible candidates, sorted by the comparator. -/
def findElementsEval (dom : List Elem) (terms : List String) : List Candidate :=
  stableSort candLE (dom.filterMap (mkCandidate terms))

/-- The object returned by the `find_elements` tool: `{ count, top }`. -/
structure FindResult where
  count : Nat
  top : List Candidate
deriving DecidableEq, Repr

/-- Line 126-127: `elements.slice(0, 6)` and the `{count, top}` payload. -/
def findResult (dom : List Elem) (terms : List String) : FindResult :=
  let trimmed := (findElementsEval dom terms).take 6
  { count := trimmed.length, top := trimmed }

/-- The five `click_element` text strategies (line 146-152), in source order. -/
inductive ClickStrategy where
  | roleButton
  | roleLink
  | byText
  | rawTextSelector
  | hasTextSelector
deriving DecidableEq, Repr

/-- The five per-synonym `fill_form_fields` strategies (line 194-208), in
source order. -/
inductive FillStrategy where
  | byLabel
  | byPlaceholder
  | byNameAttr
  | byIdAttr
  | manualLabel
deriving DecidableEq, Repr

/-- Abstract state of the single Playwright page: the DOM snapshot scanned by
`find_elements`, the title, and success oracles for each driver primitive the
tools invoke (each oracle answers "does this one locate-and-act attempt,
bounded by its short timeout, succeed on the current page?"). -/
structure PageModel where
  dom : List Elem
  pageTitle : String
  gotoError : String → Option String
  roleButtonClick : String → Bool
  roleLinkClick : String → Bool
  textClick : String → Bool
  rawTextClick : String → Bool
  hasTextClick : String → Bool
  labelFill : String → Bool
  placeholderFill : String → Bool
  nameAttrFill : String → Bool
  idAttrFill : String → Bool
  labelCount : String → Nat
  labelFor : String → Option String
  fillById : String → Bool
  nestedFill : String → Bool

/-- One attempted page interaction, for stating "what the tool touched". -/
inductive PageOp where
  | goto (url : String) (timeoutMs : Nat)
  | waitMs (ms : Int)
  | getTitle
  | screenshot (fname : String)
  | evaluateFind (terms : List String)
  | clickTry (s : ClickStrategy) (text : String)
  | mouseClick (x y : Int)
  | fillTry (lbl : String) (s : FillStrategy) (value : String)
deriving DecidableEq, Repr

/-- The `for (const a of attempts) { try { await a(); return true } catch {} }`
pattern shared by `click_element` and `tryFill`: run the attempts in order,
stop at the first success; also return the list of attempts actually run. -/
def runFirst {α : Type} (f : α → Bool) : List α → Bool × List α
  | [] => (false, [])
  | a :: rest =>
    if f a then (true, [a])
    else
      let r := runFirst f rest
      (r.1, a :: r.2)

/-- The precondition error thrown by every tool except `open_browser` and
`close_browser` when the `page` handle is unset. -/
def notInitMsg : String := "Browser not initialized. Call open_browser first."

/-- `open_browser` (line 16-38): launches a fresh page (the launched page's
behaviour is the parameter) and replaces both handles. -/
def openBrowser (fresh : PageModel) : Except String String × (Bool × Option PageModel) :=
  (.ok "Browser opened", (true, some fresh))

/-- `open_url` (line 40-55). -/
def openURL (page : Option PageModel) (url : String) :
    Except String String × List PageOp :=
  match page with
  | none => (.error notInitMsg, [])
  | some p =>
    match p.gotoError url with
    | some e => (.error ("Failed to navigate to " ++ url ++ ": " ++ e), [.goto url 30000])
    | none =>
      (.ok ("Opened URL. Title: " ++ p.pageTitle),
        [.goto url 30000, .waitMs 1500, .getTitle])

/-- JS `\w` word characters: `[A-Za-z0-9_]` (restricted to ASCII input). -/
def isWordChar (c : Char) : Bool :=
  c.isAlpha || c.isDigit || c = '_'

/-- `label.replace(/\W+/g, '_')`: each maximal run of non-word characters
collapses to a single underscore (second argument: currently inside a run). -/
def squashNonWord : List Char → Bool → List Char
  | [], _ => []
  | c :: cs, inRun =>
    if isWordChar c then c :: squashNonWord cs false
    else if inRun then squashNonWord cs true
    else '_' :: squashNonWord cs true

/-- The screenshot label sanitizer (line 67). -/
def sanitizeLabel (s : String) : String :=
  String.mk (squashNonWord s.data false)

/-- `take_screenshot` (line 57-76); `now` is `Date.now()`. -/
def takeScreenshot (page : Option PageModel) (label : Option String) (now : Nat) :
    Except String String × List PageOp :=
  match page with
  | none => (.error notInitMsg, [])
  | some _ =>
    let suffix := match label with
      | none => ""
      | some l => if l = "" then "" else sanitizeLabel l
    let fname := "shot-" ++ toString now ++ (if suffix = "" then "" else "-" ++ suffix) ++ ".png"
    (.ok ("Screenshot saved: " ++ fname), [.screenshot fname])

/-- `find_elements` (line 78-132). -/
def findElementsTool (page : Option PageModel) (terms : List String) :
    Except String FindResult × List PageOp :=
  match page with
  | none => (.error notInitMsg, [])
  | some p => (.ok (findResult p.dom terms), [.evaluateFind terms])

/-- The attempt order of line 146-152. -/
def clickStrategies : List ClickStrategy :=
  [.roleButton, .roleLink, .byText, .rawTextSelector, .hasTextSelector]

/-- Whether the strategy's Playwright call succeeds for hint `t`. -/
def clickSucceeds (p : PageModel) (t : String) : ClickStrategy → Bool
  | .roleButton => p.roleButtonClick t
  | .roleLink => p.roleLinkClick t
  | .byText => p.textClick t
  | .rawTextSelector => p.rawTextClick t
  | .hasTextSelector => p.hasTextClick t

/-- The `if (text)` branch of `click_element` (line 145-156): run the strategy
chain, settle 600ms after a success, else throw `Could not click`, re-wrapped
by the outer catch into `Failed to click: ...`. -/
def clickWithText (p : PageModel) (t : String) : Except String String × List PageOp :=
  let r := runFirst (clickSucceeds p t) clickStrategies
  if r.1 then
    (.ok ("Clicked \"" ++ t ++ "\""),
      r.2.map (fun s => PageOp.clickTry s t) ++ [.waitMs 600])
  else
    (.error ("Failed to click: Could not click \"" ++ t ++ "\""),
      r.2.map (fun s => PageOp.clickTry s t))

/-- The coordinate branch of `click_element` (line 157-163): `x != null && y
!= null` (loose null check, so `0` is a valid coordinate), else the
`Provide text or coordinates` error wrapped by the outer catch. -/
def clickCoords (_p : PageModel) (x y : Option Int) : Except String String × List PageOp :=
  match x, y with
  | some a, some b =>
    (.ok ("Clicked at (" ++ toString a ++ ", " ++ toString b ++ ")"),
      [.mouseClick a b, .waitMs 600])
  | _, _ => (.error "Failed to click: Provide text or coordinates", [])

/-- `click_element` (line 134-168).  `if (text)` is JS truthiness: the text
branch is taken only for a present, non-empty string. -/
def clickElement (page : Option PageModel) (text : Option String) (x y : Option Int) :
    Except String String × List PageOp :=
  match page with
  | none => (.error notInitMsg, [])
  | some p =>
    match text with
    | some t => if t != "" then clickWithText p t else clickCoords p x y
    | none => clickCoords p x y

/-- `lbl.toLowerCase().replace(/\s+/g, '')` (line 193). -/
def normKey (lbl : String) : String :=
  String.mk ((jsToLower lbl).data.filter (fun c => !c.isWhitespace))

/-- The per-synonym strategy order pushed at line 194-208. -/
def fillStrategyOrder : List FillStrategy :=
  [.byLabel, .byPlaceholder, .byNameAttr, .byIdAttr, .manualLabel]

/-- The full attempt list built by `tryFill`'s `for (const lbl of labels)`
loop: synonym-major, five strategies per synonym in source order. -/
def fillAttempts (labels : List String) : List (String × FillStrategy) :=
  labels.flatMap (fun lbl => fillStrategyOrder.map (fun s => (lbl, s)))

/-- Whether one fill attempt succeeds.  The `manualLabel` strategy (line
198-208) fails when no label element matches, otherwise resolves the `for`
attribute to `#id` or falls back to an input nested under the label's parent. -/
def fillAttemptSucceeds (p : PageModel) (a : String × FillStrategy) : Bool :=
  match a.2 with
  | .byLabel => p.labelFill a.1
  | .byPlaceholder => p.placeholderFill a.1
  | .byNameAttr => p.nameAttrFill (normKey a.1)
  | .byIdAttr => p.idAttrFill (normKey a.1)
  | .manualLabel =>
    if p.labelCount a.1 = 0 then false
    else
      match p.labelFor a.1 with
      | some f => p.fillById f
      | none => p.nestedFill a.1

/-- `tryFill` (line 189-212): `null` value returns false immediately; else the
attempts run in order until the first success.  Also returns the attempts
actually executed. -/
def tryFill (p : PageModel) (labels : List String) (value : Option String) :
    Bool × List (String × FillStrategy) :=
  match value with
  | none => (false, [])
  | some _ => runFirst (fillAttemptSucceeds p) (fillAttempts labels)

/-- The `fill_form_fields` parameters (line 173-183), all nullable. -/
structure FillParams where
  firstName : Option String
  lastName : Option String
  fullName : Option String
  email : Option String
  userName : Option String
  password : Option String
  confirmPassword : Option String
  message : Option String
  perFieldDelayMs : Option Int
deriving DecidableEq, Repr

/-- One entry of the `tasks` array (line 214-223). -/
structure FieldTask where
  key : String
  value : Option String
  labels : List String
deriving DecidableEq, Repr

/-- The `tasks` array (line 214-223), in source order. -/
def fillTasks (ps : FillParams) : List FieldTask :=
  [ ⟨"First Name", ps.firstName, ["First Name", "Firstname", "Given Name", "First"]⟩,
    ⟨"Last Name", ps.lastName, ["Last Name", "Lastname", "Surname", "Family Name", "Last"]⟩,
    ⟨"Full Name", ps.fullName, ["Full Name", "Full name", "FullName", "fullName"]⟩,
    ⟨"Email", ps.email, ["Email", "Email Address", "E-mail"]⟩,
    ⟨"Username", ps.userName, ["Username", "UserName", "User name"]⟩,
    ⟨"Password", ps.password, ["Password", "New Password"]⟩,
    ⟨"Your Message", ps.message, ["Your Message", "message"]⟩,
    ⟨"Confirm Password", ps.confirmPassword,
      ["Confirm Password", "Re-enter Password", "Retype Password", "Confirm"]⟩ ]

/-- The `results` accumulator of the task loop (line 225-230): one `(key, ok)`
entry per task whose value is non-null (`if (t.value == null) continue`),
in task order. -/
def fillResults (p : PageModel) (ps : FillParams) : List (String × Bool) :=
  (fillTasks ps).filterMap
    (fun t => t.value.map (fun v => (t.key, (tryFill p t.labels (some v)).1)))

/-- One pushed report entry: `` `${t.key}:${ok ? 'ok' : 'missing'}` ``. -/
def renderFillResult (r : String × Bool) : String :=
  r.1 ++ ":" ++ (if r.2 then "ok" else "missing")

/-- The page interactions of the task loop: each processed field's executed
fill attempts, then the per-field settle delay when `delay` is truthy
(line 229; default 120, `0` disables it). -/
def fillOps (p : PageModel) (ps : FillParams) : List PageOp :=
  let delay := ps.perFieldDelayMs.getD 120
  (fillTasks ps).flatMap
    (fun t =>
      match t.value with
      | none => []
      | some v =>
        ((tryFill p t.labels (some v)).2.map (fun a => PageOp.fillTry a.1 a.2 v))
          ++ (if delay ≠ 0 then [PageOp.waitMs delay] else []))

/-- `fill_form_fields` (line 170-233): precondition check, then the task loop;
the report is `results.join('|')` and the batch itself never throws. -/
def fillFormFields (page : Option PageModel) (ps : FillParams) :
    Except String String × List PageOp :=
  match page with
  | none => (.error notInitMsg, [])
  | some p =>
    (.ok (String.intercalate "|" ((fillResults p ps).map renderFillResult)),
      fillOps p ps)

/-- `close_browser` (line 235-252): with a live browser handle it closes and
clears both handles; otherwise it returns the status string `Browser not
open` — it does not throw. -/
def closeBrowser (browserOpen : Bool) (page : Option PageModel) :
    Except String String × (Bool × Option PageModel) :=
  if browserOpen then (.ok "Browser closed", (false, none))
  else (.ok "Browser not open", (browserOpen, page))

/-! ### Concrete fixtures used by witnesses and counterexamples -/

/-- A visible anchor element whose text is `abc`. -/
def elemA : Elem := ⟨"abc", "", "A", "", "", 10, 10, 0, 0⟩

/-- Like `elemA` but with a zero-width bounding box (invisible). -/
def elemZero : Elem := ⟨"abc", "", "A", "", "", 0, 10, 0, 0⟩

/-- The candidate `find_elements` produces for `elemA` under one matching
term. -/
def candA : Candidate := ⟨"abc", "a", none, "", 1, 5, 5⟩

/-- A page on which every locate/fill/click driver primitive fails. -/
def pNone : PageModel :=
  { dom := []
    pageTitle := ""
    gotoError := fun _ => none
    roleButtonClick := fun _ => false
    roleLinkClick := fun _ => false
    textClick := fun _ => false
    rawTextClick := fun _ => false
    hasTextClick := fun _ => false
    labelFill := fun _ => false
    placeholderFill := fun _ => false
    nameAttrFill := fun _ => false
    idAttrFill := fun _ => false
    labelCount := fun _ => 0
    labelFor := fun _ => none
    fillById := fun _ => false
    nestedFill := fun _ => false }

/-- Fill parameters with every field null. -/
def psAllNone : FillParams := ⟨none, none, none, none, none, none, none, none, none⟩

/-- Fill parameters supplying only the email field. -/
def psEmailOnly : FillParams := { psAllNone with email := some "x" }

/-- The keys of the eight field tasks, in declaration order. -/
def taskKeys : List String :=
  ["First Name", "Last Name", "Full Name", "Email", "Username", "Password",
   "Your Message", "Confirm Password"]

/-- The synonym list declared for each task key. -/
def taskLabels (k : String) : List String :=
  if k = "First Name" then ["First Name", "Firstname", "Given Name", "First"]
  else if k = "Last Name" then ["Last Name", "Lastname", "Surname", "Family Name", "Last"]
  else if k = "Full Name" then ["Full Name", "Full name", "FullName", "fullName"]
  else if k = "Email" then ["Email", "Email Address", "E-mail"]
  else if k = "Username" then ["Username", "UserName", "User name"]
  else if k = "Password" then ["Password", "New Password"]
  else if k = "Your Message" then ["Your Message", "message"]
  else if k = "Confirm Password" then
    ["Confirm Password", "Re-enter Password", "Retype Password", "Confirm"]
  else []

/-- The parameter field supplying each task key's value. -/
def taskValue (ps : FillParams) (k : String) : Option String :=
  if k = "First Name" then ps.firstName
  else if k = "Last Name" then ps.lastName
  else if k = "Full Name" then ps.fullName
  else if k = "Email" then ps.email
  else if k = "Username" then ps.userName
  else if k = "Password" then ps.password
  else if k = "Your Message" then ps.message
  else if k = "Confirm Password" then ps.confirmPassword
  else none

/-! ### Lemmas about the strategy-chain runner -/

/-- `runFirst` succeeds iff some attempt succeeds, and the attempts actually
executed are the failing prefix followed by the first success, if any. -/
theorem runFirst_eq {α : Type} (f : α → Bool) (l : List α) :
    runFirst f l
      = (l.any f,
         l.takeWhile (fun a => !f a) ++ (l.dropWhile (fun a => !f a)).take 1) := by
  induction l with
  | nil => rfl
  | cons a l ih =>
    by_cases h : f a
    · simp [runFirst, h, List.takeWhile_cons, List.dropWhile_cons]
    · simp [runFirst, h, List.takeWhile_cons, List.dropWhile_cons, ih]

/-- Every executed attempt was drawn from the attempt list. -/
theorem mem_runFirst {α : Type} {f : α → Bool} {x : α} {l : List α}
    (h : x ∈ (runFirst f l).2) : x ∈ l := by
  rw [runFirst_eq] at h
  rcases List.mem_append.mp h with h1 | h2
  · exact (List.takeWhile_sublist _).mem h1
  · exact (List.dropWhile_sublist _).mem (List.mem_of_mem_take h2)

/-! ### Lemmas about the candidate sort -/

theorem mem_orderedIns {α : Type} {le : α → α → Bool} {x a : α} {l : List α} :
    x ∈ orderedIns le a l ↔ x = a ∨ x ∈ l := by
  induction l with
  | nil => simp [orderedIns]
  | cons b l ih =>
    by_cases h : le a b
    · simp [orderedIns, h]
    · simp [orderedIns, h, ih]
      tauto

theorem pairwise_orderedIns {α : Type} {le : α → α → Bool}
    (htrans : ∀ a b c, le a b = true → le b c = true → le a c = true)
    (htot : ∀ a b, le a b = true ∨ le b a = true) (a : α) {l : List α}
    (hl : l.Pairwise (fun x y => le x y = true)) :
    (orderedIns le a l).Pairwise (fun x y => le x y = true) := by
  induction l with
  | nil => simp [orderedIns]
  | cons b l ih =>
    obtain ⟨hb, hl'⟩ := List.pairwise_cons.mp hl
    by_cases h : le a b
    · rw [orderedIns, if_pos h]
      refine List.pairwise_cons.mpr ⟨?_, hl⟩
      intro x hx
      rcases List.mem_cons.mp hx with rfl | hx
      · exact h
      · exact htrans a b x h (hb x hx)
    · rw [orderedIns, if_neg h]
      refine List.pairwise_cons.mpr ⟨?_, ih hl'⟩
      intro x hx
      rcases mem_orderedIns.mp hx with h' | hx
      · rcases htot a b with h2 | h2
        · exact absurd h2 h
        · rw [h']
          exact h2
      · exact hb x hx

/-- The sorted output is pairwise ordered by the comparator relation. -/
theorem pairwise_stableSort {α : Type} {le : α → α → Bool}
    (htrans : ∀ a b c, le a b = true → le b c = true → le a c = true)
    (htot : ∀ a b, le a b = true ∨ le b a = true) (l : List α) :
    (stableSort le l).Pairwise (fun x y => le x y = true) := by
  induction l with
  | nil => simp [stableSort]
  | cons a l ih => exact pairwise_orderedIns htrans htot a ih

theorem mem_stableSort {α : Type} {le : α → α → Bool} {x : α} {l : List α} :
    x ∈ stableSort le l ↔ x ∈ l := by
  induction l with
  | nil => simp [stableSort]
  | cons a l ih => simp [stableSort, mem_orderedIns, ih]

/-- The comparator is transitive. -/
theorem candLE_trans (a b c : Candidate) (hab : candLE a b = true)
    (hbc : candLE b c = true) : candLE a c = true := by
  unfold candLE at hab hbc ⊢
  split_ifs at hab hbc ⊢ <;> simp only [decide_eq_true_eq] at * <;> omega

/-- The comparator is total. -/
theorem candLE_total (a b : Candidate) : candLE a b = true ∨ candLE b a = true := by
  unfold candLE
  split_ifs <;> simp only [decide_eq_true_eq] <;> omega

/-- Reading the comparator back as the ranking property. -/
theorem candLE_spec {a b : Candidate} (h : candLE a b = true) :
    b.confidence ≤ a.confidence
      ∧ (a.confidence = b.confidence → b.text.length ≤ a.text.length) := by
  unfold candLE at h
  split_ifs at h with h1 <;> simp only [decide_eq_true_eq] at h
  · exact ⟨Nat.le_of_eq h1.symm, fun _ => h⟩
  · exact ⟨Nat.le_of_lt h, fun he => absurd he h1⟩

/-! ### Lemmas about the locate pipeline -/

/-- Every candidate in the returned list was produced from some DOM element. -/
theorem mem_findResult_top {dom : List Elem} {terms : List String} {c : Candidate}
    (hc : c ∈ (findResult dom terms).top) :
    ∃ e ∈ dom, mkCandidate terms e = some c := by
  have h0 : c ∈ (findElementsEval dom terms).take 6 := hc
  have h1 : c ∈ stableSort candLE (dom.filterMap (mkCandidate terms)) :=
    List.mem_of_mem_take h0
  exact List.mem_filterMap.mp (mem_stableSort.mp h1)

/-- Unfolding a successful candidate construction. -/
theorem mkCandidate_some {terms : List String} {e : Elem} {c : Candidate}
    (h : mkCandidate terms e = some c) :
    0 < e.width ∧ 0 < e.height
      ∧ c.confidence = (terms.filter (fun t => termMatches e t)).length := by
  unfold mkCandidate at h
  split at h
  · split at h
    · rename_i hvis hn
      simp only [Bool.and_eq_true, decide_eq_true_eq] at hvis
      have hc := Option.some.inj h
      refine ⟨hvis.1, hvis.2, ?_⟩
      rw [← hc]
    · cases h
  · cases h

/-! ### Lemmas about the fill tasks -/

/-- Each task of the loop is determined by its key: its key is one of the
eight declared keys, and its value and synonyms are the ones declared for
that key. -/
theorem fillTasks_canon (ps : FillParams) :
    ∀ t ∈ fillTasks ps,
      t.key ∈ taskKeys ∧ t = ⟨t.key, taskValue ps t.key, taskLabels t.key⟩ := by
  intro t ht
  simp only [fillTasks, List.mem_cons, List.not_mem_nil, or_false] at ht
  rcases ht with rfl | rfl | rfl | rfl | rfl | rfl | rfl | rfl <;>
    exact ⟨by simp [taskKeys], rfl⟩

/-- Distinct tasks declare disjoint synonym lists. -/
theorem taskLabels_disjoint :
    ∀ k ∈ taskKeys, ∀ k' ∈ taskKeys, k ≠ k' →
      ∀ a ∈ taskLabels k, a ∉ taskLabels k' := by decide

/-- Tasks with the same key are the same task. -/
theorem fillTasks_key_eq (ps : FillParams) {t t' : FieldTask}
    (h : t ∈ fillTasks ps) (h' : t' ∈ fillTasks ps) (hk : t.key = t'.key) :
    t = t' := by
  have h1 := (fillTasks_canon ps t h).2
  have h2 := (fillTasks_canon ps t' h').2
  rw [h1, h2, hk]

/-- Tasks sharing a synonym are the same task. -/
theorem fillTasks_label_shared (ps : FillParams) {t t' : FieldTask}
    (h : t ∈ fillTasks ps) (h' : t' ∈ fillTasks ps) {lbl : String}
    (hl : lbl ∈ t.labels) (hl' : lbl ∈ t'.labels) : t = t' := by
  obtain ⟨hk1, hc1⟩ := fillTasks_canon ps t h
  obtain ⟨hk2, hc2⟩ := fillTasks_canon ps t' h'
  by_cases hkk : t.key = t'.key
  · exact fillTasks_key_eq ps h h' hkk
  · exfalso
    have hlt : lbl ∈ taskLabels t.key := by
      rw [hc1] at hl
      exact hl
    have hlt' : lbl ∈ taskLabels t'.key := by
      rw [hc2] at hl'
      exact hl'
    exact taskLabels_disjoint t.key hk1 t'.key hk2 hkk lbl hlt hlt'

/-- An executed fill attempt's synonym comes from the synonym list it was
generated from. -/
theorem mem_tryFill_labels {p : PageModel} {labels : List String} {v : String}
    {a : String × FillStrategy} (h : a ∈ (tryFill p labels (some v)).2) :
    a.1 ∈ labels := by
  have h1 : a ∈ fillAttempts labels := mem_runFirst h
  obtain ⟨lbl, hlbl, hmem⟩ := List.mem_flatMap.mp h1
  obtain ⟨s, hs, heq⟩ := List.mem_map.mp hmem
  rw [← heq]
  exact hlbl

/-- The report keys are exactly the keys of the non-null tasks, in task
order. -/
theorem fillResults_keys (p : PageModel) (l : List FieldTask) :
    ((l.filterMap
        (fun t => t.value.map (fun v => (t.key, (tryFill p t.labels (some v)).1)))).map
          Prod.fst)
      = (l.filter (fun t => t.value.isSome)).map FieldTask.key := by
  induction l with
  | nil => rfl
  | cons t l ih =>
    cases hv : t.value <;> simp [List.filterMap_cons, List.filter_cons, hv, ih]

/-! ### The claims -/

/-- C1 (amended): while the session is closed, `open_url`, `take_screenshot`,
`find_elements`, `click_element` and `fill_form_fields` all fail with the
precondition error `Browser not initialized. Call open_browser first.` and
attempt no page interaction; `close_browser`, the remaining non-open action,
instead returns the status string `Browser not open` without failing. -/
theorem C1_closed_session_precondition (url : String) (label : Option String)
    (now : Nat) (terms : List String) (text : Option String) (x y : Option Int)
    (ps : FillParams) :
    openURL none url = (.error notInitMsg, [])
      ∧ takeScreenshot none label now = (.error notInitMsg, [])
      ∧ findElementsTool none terms = (.error notInitMsg, [])
      ∧ clickElement none text x y = (.error notInitMsg, [])
      ∧ fillFormFields none ps = (.error notInitMsg, [])
      ∧ (closeBrowser false none).1 = .ok "Browser not open" :=
  ⟨rfl, rfl, rfl, rfl, rfl, rfl⟩

/-- C1 counterexample: contrary to the claim, `close_browser` invoked while
the session is closed does not fail with a precondition error — it returns
the plain status string `Browser not open`. -/
theorem C1_counterexample :
    (closeBrowser false none).1 = Except.ok "Browser not open" := rfl

/-- C2: for a field with a non-null value, the fill attempts are generated
synonym-major (for each synonym in declared order, the five strategies in
their declared order), the executed attempts are exactly the failing prefix
of that list followed by the first succeeding attempt if there is one, and
the field is reported filled iff some attempt succeeds — so the first success
ends processing and every later synonym/strategy pair is skipped. -/
theorem C2_fill_attempt_order (p : PageModel) (labels : List String) (v : String) :
    fillAttempts labels
        = labels.flatMap (fun lbl =>
            [(lbl, FillStrategy.byLabel), (lbl, FillStrategy.byPlaceholder),
             (lbl, FillStrategy.byNameAttr), (lbl, FillStrategy.byIdAttr),
             (lbl, FillStrategy.manualLabel)])
      ∧ (tryFill p labels (some v)).2
          = (fillAttempts labels).takeWhile (fun a => !fillAttemptSucceeds p a)
              ++ ((fillAttempts labels).dropWhile (fun a => !fillAttemptSucceeds p a)).take 1
      ∧ (tryFill p labels (some v)).1
          = (fillAttempts labels).any (fillAttemptSucceeds p) := by
  refine ⟨rfl, ?_, ?_⟩ <;> simp [tryFill, runFirst_eq]

/-- C3 counterexample: with the duplicated hint list `["a", "a"]`, the single
candidate located for a matching element has confidence 2, though only one
distinct hint term matched it — confidence counts term occurrences, not
distinct terms. -/
theorem C3_counterexample :
    ∃ c ∈ (findResult [elemA] ["a", "a"]).top,
      c.confidence
        ≠ (["a", "a"].dedup.filter (fun t => termMatches elemA t)).length := by
  decide

/-- C3 (amended): every candidate returned by locate was built from some DOM
element, and its confidence equals the number of supplied hint-term
occurrences matching that element (a term matches via visible text, class or
id, with no weighting by which attribute matched); when the supplied hint
terms are pairwise distinct, this is exactly the count of distinct matching
hint terms. -/
theorem C3_confidence (dom : List Elem) (terms : List String) (c : Candidate)
    (hc : c ∈ (findResult dom terms).top) :
    ∃ e ∈ dom,
      c.confidence = (terms.filter (fun t => termMatches e t)).length
        ∧ (terms.Nodup →
            c.confidence = (terms.dedup.filter (fun t => termMatches e t)).length) := by
  obtain ⟨e, he, hmk⟩ := mem_findResult_top hc
  obtain ⟨-, -, hconf⟩ := mkCandidate_some hmk
  refine ⟨e, he, hconf, fun hnd => ?_⟩
  rw [List.dedup_eq_self.mpr hnd]
  exact hconf

/-- C3 witness: a concrete one-element page with a single hint term. -/
theorem C3_confidence_witness :
    ∃ e ∈ [elemA],
      candA.confidence = (["a"].filter (fun t => termMatches e t)).length
        ∧ (["a"].Nodup →
            candA.confidence = (["a"].dedup.filter (fun t => termMatches e t)).length) :=
  C3_confidence [elemA] ["a"] candA (by decide)

/-- C4: the candidate list returned by locate is sorted so that strictly
higher confidence always comes first, and at equal confidence the longer
visible text comes first. -/
theorem C4_ranking (dom : List Elem) (terms : List String) :
    (findResult dom terms).top.Pairwise
      (fun a b => b.confidence ≤ a.confidence
        ∧ (a.confidence = b.confidence → b.text.length ≤ a.text.length)) := by
  have hs := pairwise_stableSort candLE_trans candLE_total
    (dom.filterMap (mkCandidate terms))
  have ht : (findResult dom terms).top
      = (stableSort candLE (dom.filterMap (mkCandidate terms))).take 6 := rfl
  rw [ht]
  exact (List.Pairwise.sublist (List.take_sublist 6 _) hs).imp (fun h => candLE_spec h)

/-- C5: every candidate in the list returned by locate arises from a DOM
element with strictly positive rendered width and height, and an element
whose bounding box has zero width or zero height never yields a candidate,
no matter how well its text, class or id match the hint terms. -/
theorem C5_visibility (dom : List Elem) (terms : List String) :
    (∀ c ∈ (findResult dom terms).top,
        ∃ e ∈ dom, 0 < e.width ∧ 0 < e.height ∧ mkCandidate terms e = some c)
      ∧ (∀ e : Elem, e.width = 0 ∨ e.height = 0 → mkCandidate terms e = none) := by
  constructor
  · intro c hc
    obtain ⟨e, he, hmk⟩ := mem_findResult_top hc
    obtain ⟨hw, hh, -⟩ := mkCandidate_some hmk
    exact ⟨e, he, hw, hh, hmk⟩
  · intro e he
    have hvis : (e.width > 0 && e.height > 0) = false := by
      rcases he with h | h <;> simp [h]
    unfold mkCandidate
    rw [hvis]
    simp

/-- C5 witness: the zero-width element yields no candidate even though its
text matches the hint. -/
theorem C5_visibility_witness : mkCandidate ["a"] elemZero = none :=
  (C5_visibility [elemZero] ["a"]).2 elemZero (Or.inl rfl)

/-- C6: locate returns at most 6 candidates whatever the DOM, the reported
count is the length of the returned list, and when no element matches it
returns the empty zero-count result (a normal return, not an error). -/
theorem C6_cap_and_empty (dom : List Elem) (terms : List String) :
    (findResult dom terms).top.length ≤ 6
      ∧ (findResult dom terms).count = (findResult dom terms).top.length
      ∧ ((∀ e ∈ dom, mkCandidate terms e = none) → findResult dom terms = ⟨0, []⟩) := by
  refine ⟨?_, rfl, ?_⟩
  · have ht : (findResult dom terms).top = (findElementsEval dom terms).take 6 := rfl
    rw [ht, List.length_take]
    omega
  · intro hall
    have h0 : dom.filterMap (mkCandidate terms) = [] :=
      List.filterMap_eq_nil_iff.mpr hall
    have h1 : findElementsEval dom terms = [] := by
      unfold findElementsEval
      rw [h0]
      rfl
    unfold findResult
    rw [h1]
    rfl

/-- C6 witness: a DOM whose only element is invisible yields the empty
result. -/
theorem C6_cap_and_empty_witness : findResult [elemZero] ["a"] = ⟨0, []⟩ :=
  (C6_cap_and_empty [elemZero] ["a"]).2.2 (by decide)

/-- C7: with a truthy text hint, the five click strategies are attempted in
their fixed order with each failure swallowed: the attempts actually executed
are the failing prefix of the strategy list plus the first succeeding
strategy if any (followed by the settle delay); if some strategy succeeds the
action reports the click, and only when all five fail does it fail, with an
error naming the attempted text. -/
theorem C7_click_strategy_chain (p : PageModel) (t : String) (x y : Option Int)
    (ht : t ≠ "") :
    (clickElement (some p) (some t) x y).2
        = ((clickStrategies.takeWhile (fun s => !clickSucceeds p t s)
            ++ (clickStrategies.dropWhile (fun s => !clickSucceeds p t s)).take 1).map
              (fun s => PageOp.clickTry s t))
          ++ (if clickStrategies.any (clickSucceeds p t) then [PageOp.waitMs 600] else [])
      ∧ ((∀ s ∈ clickStrategies, clickSucceeds p t s = false) →
          (clickElement (some p) (some t) x y).1
            = .error ("Failed to click: Could not click \"" ++ t ++ "\""))
      ∧ (clickStrategies.any (clickSucceeds p t) = true →
          (clickElement (some p) (some t) x y).1 = .ok ("Clicked \"" ++ t ++ "\"")) := by
  have htt : (t != "") = true := bne_iff_ne.mpr ht
  have hred : clickElement (some p) (some t) x y = clickWithText p t := by
    simp [clickElement, htt]
  rw [hred]
  unfold clickWithText
  rw [runFirst_eq]
  by_cases hany : clickStrategies.any (clickSucceeds p t)
  · simp [hany]
    exact List.any_eq_true.mp hany
  · simp [hany]

/-- C7 witness: on a page where every strategy fails, clicking `go` fails
with the error naming `go`. -/
theorem C7_click_strategy_chain_witness :
    (clickElement (some pNone) (some "go") none none).1
      = .error ("Failed to click: Could not click \"go\"") :=
  (C7_click_strategy_chain pNone "go" none none (by decide)).2.1 (by decide)

/-- C8: a field whose value is null is skipped entirely by the fill batch:
no entry for its key appears in the report (neither filled nor missing), and
no fill attempt with any of its synonyms is executed. -/
theorem C8_null_field_skipped (p : PageModel) (ps : FillParams) (t : FieldTask)
    (hmem : t ∈ fillTasks ps) (hval : t.value = none) :
    (∀ r ∈ fillResults p ps, r.1 ≠ t.key)
      ∧ (∀ (lbl : String) (s : FillStrategy) (v : String), lbl ∈ t.labels →
          PageOp.fillTry lbl s v ∉ fillOps p ps) := by
  constructor
  · intro r hr hkey
    obtain ⟨t', ht', hft⟩ := List.mem_filterMap.mp hr
    cases hv : t'.value with
    | none =>
      rw [hv] at hft
      cases hft
    | some v =>
      rw [hv] at hft
      have hr1 : r.1 = t'.key := by
        rw [← Option.some.inj hft]
      have heq : t' = t := fillTasks_key_eq ps ht' hmem (by rw [← hr1, hkey])
      rw [heq, hval] at hv
      cases hv
  · intro lbl s v hlbl hop
    obtain ⟨t', ht', hin⟩ := List.mem_flatMap.mp hop
    cases hv : t'.value with
    | none =>
      rw [hv] at hin
      cases hin
    | some v' =>
      rw [hv] at hin
      rcases List.mem_append.mp hin with h1 | h2
      · obtain ⟨a, ha, haeq⟩ := List.mem_map.mp h1
        have hl' : a.1 ∈ t'.labels := mem_tryFill_labels ha
        have hlbl' : lbl ∈ t'.labels := by
          have : a.1 = lbl := by
            have := congrArg (fun op => match op with
              | PageOp.fillTry l _ _ => l
              | _ => "") haeq
            simpa using this
          rw [← this]
          exact hl'
        have heq : t' = t := fillTasks_label_shared ps ht' hmem hlbl' hlbl
        rw [heq, hval] at hv
        cases hv
      · revert h2
        split
        · intro h2
          rcases List.mem_singleton.mp h2 with h3
          cases h3
        · intro h2
          cases h2

/-- C8 witness: with every field null, no `Email` entry is reported. -/
theorem C8_null_field_skipped_witness :
    ("Email", false) ∉ fillResults pNone psAllNone :=
  fun hmem =>
    absurd rfl
      ((C8_null_field_skipped pNone psAllNone
          ⟨"Email", none, ["Email", "Email Address", "E-mail"]⟩
          (by decide) rfl).1 ("Email", false) hmem)

/-- C9: the report contains exactly one entry per non-null field, in
declaration order; a non-null field on which every attempt fails is reported
(with a missing mark) rather than aborting, and the batch as a whole returns
normally whatever the per-field outcomes. -/
theorem C9_missing_and_continue (p : PageModel) (ps : FillParams) :
    ((fillResults p ps).map Prod.fst
        = ((fillTasks ps).filter (fun t => t.value.isSome)).map FieldTask.key)
      ∧ (∀ t ∈ fillTasks ps, ∀ v : String, t.value = some v →
          (tryFill p t.labels (some v)).1 = false →
          (t.key, false) ∈ fillResults p ps)
      ∧ (fillFormFields (some p) ps).1.isOk = true := by
  refine ⟨fillResults_keys p (fillTasks ps), ?_, rfl⟩
  intro t hmem v hv hfail
  refine List.mem_filterMap.mpr ⟨t, hmem, ?_⟩
  rw [hv]
  simp [hfail]

/-- C9 witness: email supplied on a page where every fill attempt fails is
reported missing. -/
theorem C9_missing_and_continue_witness :
    ("Email", false) ∈ fillResults pNone psEmailOnly :=
  (C9_missing_and_continue pNone psEmailOnly).2.1
    ⟨"Email", some "x", ["Email", "Email Address", "E-mail"]⟩
    (by decide) "x" rfl (by decide)

/-- C10: an empty-string text hint is treated like an absent text: the call
behaves exactly as with a null text, no click strategy is attempted, both
coordinates present routes the click to the point — including coordinate 0,
since presence is a null check rather than truthiness — and a missing
coordinate yields the caller error asking for text or coordinates. -/
theorem C10_empty_text_hint (p : PageModel) (x y : Option Int) :
    clickElement (some p) (some "") x y = clickElement (some p) none x y
      ∧ ((clickElement (some p) (some "") x y).2.all
          (fun op => match op with
            | PageOp.clickTry _ _ => false
            | _ => true)) = true
      ∧ (∀ a b : Int, clickElement (some p) (some "") (some a) (some b)
          = (.ok ("Clicked at (" ++ toString a ++ ", " ++ toString b ++ ")"),
             [.mouseClick a b, .waitMs 600]))
      ∧ clickElement (some p) (some "") (some 0) (some 0)
          = (.ok "Clicked at (0, 0)", [.mouseClick 0 0, .waitMs 600])
      ∧ clickElement (some p) (some "") none y
          = (.error "Failed to click: Provide text or coordinates", [])
      ∧ clickElement (some p) (some "") x none
          = (.error "Failed to click: Provide text or coordinates", []) := by
  rcases x with _ | a <;> rcases y with _ | b <;>
    exact ⟨rfl, rfl, fun a b => rfl, rfl, rfl, rfl⟩
